import Mathlib

/-!
Shallow embedding of the trail-map DEM conversion pipeline
(`src/web/geotiff_data/hgt_to_geotiff.py` and
`src/web/geotiff_data/dem_to_heightmap.py`) and proofs of the spec's
claims about it.

Conventions of the embedding:
* Python byte strings become `List Nat` (each entry one byte value).
* NumPy int16 samples become `Int`, and the normalizer's int16
  subtractions wrap explicitly (`wrap16`), as NumPy's do on overflow.
* Machine floats: the normalizer's float64 division is modelled as exact
  rational truncation together with an explicit undefinedness marker for
  the two cases NumPy leaves undefined (0/0 = NaN, and a value outside
  the `uint8` cast's defined range); on the domain where the theorems
  below use it, this coincides with the double-rounded binary64
  computation (see the note on `quantize`).  The transform builder's
  float64 division and multiplication are modelled twice: exactly over ℚ
  (the rounding-free reference semantics, so named) and by an explicit
  binary64 round-to-nearest-even model (`b64OfRatPos`) used to show where
  the real program's rounding breaks exactness.
* Python exceptions become `Except` error values.
-/

/-! ## GeoBounds Resolver (`hgt_to_geotiff.py`, lines 16-37) -/

/-- Errors raised while parsing a tile identifier: `IndexError` from
indexing past the end of the string, `ValueError` from `int()` on a
non-numeric field.  The spec groups both under `MalformedIdentifier`. -/
inductive HgtError where
  | IndexError : HgtError
  | ValueError : HgtError
deriving DecidableEq, Repr

/-- The 1-degree bounding box derived from a tile identifier
(`west`, `south`, `east`, `north` in whole degrees). -/
structure GeoBounds where
  west : Int
  south : Int
  east : Int
  north : Int
deriving DecidableEq, Repr

/-- Value of a digit string, most significant first:
`int("27") = 27` for all-digit input. -/
def digitsToNat (cs : List Char) : Nat :=
  cs.foldl (fun a c => a * 10 + (c.toNat - 48)) 0

/-- Python `int(str)`: strips surrounding whitespace, allows one optional
sign, then requires a nonempty run of digits.  (Underscore digit
separators are not modelled; no input in this development contains one.)
Returns `none` where Python raises `ValueError`. -/
def pyInt (cs : List Char) : Option Int :=
  let t := ((cs.dropWhile Char.isWhitespace).reverse.dropWhile Char.isWhitespace).reverse
  if t = [] then none
  else if t.head? = some '-' then
    (if (t.drop 1) ≠ [] ∧ (t.drop 1).all Char.isDigit
     then some (-(digitsToNat (t.drop 1) : Int)) else none)
  else if t.head? = some '+' then
    (if (t.drop 1) ≠ [] ∧ (t.drop 1).all Char.isDigit
     then some ((digitsToNat (t.drop 1) : Int)) else none)
  else if t.all Char.isDigit then some ((digitsToNat t : Int)) else none

/-- Python slice `cs[a:b]` for `0 ≤ a ≤ b` (never raises; clamps to the
available characters, exactly as Python slicing does). -/
def pySlice (cs : List Char) (a b : Nat) : List Char :=
  (cs.drop a).take (b - a)

/-- The filename-driven bounds derivation of `hgt_to_geotiff` (lines
16-37), applied to the filename stem (basename with `.hgt` removed):
`lat_dir = s[0]`, `lat_val = int(s[1:3])`, `lon_dir = s[3]`,
`lon_val = int(s[4:7])`; then `S` negates latitude (otherwise it is
treated as north) and `W` negates longitude (otherwise east), with
`north = south-side value + 1` and `east = west-side value + 1`. -/
def hgt_parse (stem : String) : Except HgtError GeoBounds :=
  let cs := stem.data
  match cs[0]? with
  | none => Except.error HgtError.IndexError
  | some lat_dir =>
    match pyInt (pySlice cs 1 3) with
    | none => Except.error HgtError.ValueError
    | some lat_val =>
      match cs[3]? with
      | none => Except.error HgtError.IndexError
      | some lon_dir =>
        match pyInt (pySlice cs 4 7) with
        | none => Except.error HgtError.ValueError
        | some lon_val =>
          let sn := if lat_dir = 'S' then (-lat_val, -lat_val + 1)
                    else (lat_val, lat_val + 1)
          let we := if lon_dir = 'W' then (-lon_val, -lon_val + 1)
                    else (lon_val, lon_val + 1)
          Except.ok ⟨we.1, sn.1, we.2, sn.2⟩

/-- Whether an `Except` computation ended in an error. -/
def isFailure {ε α : Type} : Except ε α → Bool
  | Except.error _ => true
  | Except.ok _ => false

/-! ## Tile Decoder (`hgt_to_geotiff.py`, lines 39-54) -/

/-- One big-endian 16-bit signed sample from two bytes
(`dtype='>i2'`): high byte first, two's complement. -/
def toSigned16 (hi lo : Nat) : Int :=
  let w := (hi % 256) * 256 + lo % 256
  if w < 32768 then (w : Int) else (w : Int) - 65536

/-- `np.fromfile(f, dtype='>i2')`: consume the byte stream two bytes at a
time; a trailing partial element (a lone final byte) is silently
dropped, as `np.fromfile` does. -/
def readBigEndian16 : List Nat → List Int
  | hi :: lo :: rest => toSigned16 hi lo :: readBigEndian16 rest
  | _ => []

/-- `data.reshape((nrows, ncols))` viewed as a list of `nrows` rows of
`ncols` consecutive samples (row-major).  Only used behind the length
guard `data.length = nrows * ncols`, where it is the exact reshape. -/
def reshape : Nat → Nat → List Int → List (List Int)
  | 0, _, _ => []
  | n + 1, ncols, l => l.take ncols :: reshape n ncols (l.drop ncols)

/-- `np.flipud`: reverse the row order. -/
def np_flipud (rows : List (List Int)) : List (List Int) :=
  rows.reverse

/-- The decode steps of `hgt_to_geotiff` (lines 43-54) with the fixed
`nrows = ncols = 3601` generalized to parameters: read big-endian 16-bit
samples, reshape to `nrows × ncols` (NumPy's `reshape` raises
`ValueError` when the element count does not match), then flip
vertically. -/
def hgt_decode (nrows ncols : Nat) (bytes : List Nat) : Except HgtError (List (List Int)) :=
  let data := readBigEndian16 bytes
  if data.length = nrows * ncols then
    Except.ok (np_flipud (reshape nrows ncols data))
  else
    Except.error HgtError.ValueError

/-- The decoder at the source's fixed SRTM1 dimensions 3601 × 3601. -/
def hgt_decode_srtm (bytes : List Nat) : Except HgtError (List (List Int)) :=
  hgt_decode 3601 3601 bytes

/-! ## Affine Transform Builder (`hgt_to_geotiff.py`, lines 56-61) -/

/-- rasterio's `Affine(a, b, c, d, e, f)`: the map
`(col, row) ↦ (a·col + b·row + c, d·col + e·row + f)`. -/
structure Affine where
  a : ℚ
  b : ℚ
  c : ℚ
  d : ℚ
  e : ℚ
  f : ℚ
deriving DecidableEq, Repr

/-- rasterio's `from_origin(west, north, xsize, ysize)` =
`Affine(xsize, 0, west, 0, -ysize, north)`. -/
def from_origin (west north xsize ysize : ℚ) : Affine :=
  ⟨xsize, 0, west, 0, -ysize, north⟩

/-- Application of a rasterio affine transform to pixel coordinates
`(col, row)`, yielding geographic `(x, y)`. -/
def affineApply (t : Affine) (col row : ℚ) : ℚ × ℚ :=
  (t.a * col + t.b * row + t.c, t.d * col + t.e * row + t.f)

/-- Lines 56-61 of `hgt_to_geotiff` in the rounding-free reference
semantics: the float64 degree arithmetic evaluated as exact rationals.
This is deliberately an idealization — the program computes
`pixel_width = (east - west) / ncols` in binary64, which rounds; the
binary64 model below (`pixel_width_f64`, `corner_x_f64`) captures that
rounding and is used to show where it breaks the exact corner mapping. -/
def buildTransform (gb : GeoBounds) (nrows ncols : Nat) : Affine :=
  let pixel_width : ℚ := ((gb.east : ℚ) - gb.west) / ncols
  let pixel_height : ℚ := ((gb.north : ℚ) - gb.south) / nrows
  from_origin gb.west gb.north pixel_width pixel_height

/-- Fuel-bounded `⌊log₂ n⌋` (0 for `n ≤ 1`); with fuel ≥ the bit length
of `n` it is exact.  Structural recursion on the fuel keeps it
kernel-reducible, unlike `Nat.log2`. -/
def floorLog2 : Nat → Nat → Nat
  | 0, _ => 0
  | fuel + 1, n => if n ≤ 1 then 0 else floorLog2 fuel (n / 2) + 1

/-- Round-to-nearest-even binary64 value of the positive rational
`a / b` (for `0 < a`, `0 < b`, value in `(2⁻²⁰⁰, 2⁵²)`), returned as a
significand-exponent pair `(m, e)` meaning `m · 2^e`.  The binade is
located through `⌊a·2²⁰⁰/b⌋`; the 53-bit significand is then rounded
half-to-even (a carry into `2⁵³` still denotes the correct value).
This is IEEE-754 binary64 division on that range (no overflow or
underflow); outside it the result is meaningless. -/
def b64OfRatPos (a b : Int) : Int × Int :=
  let n := a * 2 ^ 200 / b
  let L := floorLog2 300 n.toNat
  let s := 252 - L
  let m0 := a * 2 ^ s / b
  let r := a * 2 ^ s - m0 * b
  let m := if 2 * r > b then m0 + 1
           else if 2 * r < b then m0
           else if m0 % 2 = 0 then m0 else m0 + 1
  (m, (L : Int) - 252)

/-- Binary64 product of a float `(m, e)` with a positive integer `k`:
the exact product, re-rounded to 53 significant bits. -/
def b64MulInt (x : Int × Int) (k : Int) : Int × Int :=
  if x.2 < 0 then b64OfRatPos (x.1 * k) (2 ^ (-x.2).toNat)
  else b64OfRatPos (x.1 * k * 2 ^ x.2.toNat) 1

/-- The exact rational value denoted by a significand-exponent pair. -/
def f64Val (x : Int × Int) : ℚ :=
  (x.1 : ℚ) * (2 : ℚ) ^ x.2

/-- Line 57, `pixel_width = (east - west) / ncols`, computed as the
program does: in binary64 (meaningful for east > west, ncols > 0). -/
def pixel_width_f64 (gb : GeoBounds) (ncols : Nat) : Int × Int :=
  b64OfRatPos (gb.east - gb.west) (ncols : Int)

/-- The x-coordinate the program's transform assigns to pixel column
`ncols` (the east corner): `west + ncols · pixel_width`, the product
rounded in binary64 as the program's affine application does.  The outer
addition is exact in IEEE arithmetic whenever `west = 0`, the case the
counterexample below uses. -/
def corner_x_f64 (gb : GeoBounds) (ncols : Nat) : ℚ :=
  (gb.west : ℚ) + f64Val (b64MulInt (pixel_width_f64 gb ncols) (ncols : Int))

/-! ## Heightmap Normalizer (`dem_to_heightmap.py`, lines 20-34) -/

/-- Failure of the normalizer.  On an all-nodata grid the source's
`valid_data.min()` is a reduction over an empty array and raises
`ValueError`; the spec names this failure `EmptyValidRange`. -/
inductive NormError where
  | EmptyValidRange : NormError
deriving DecidableEq, Repr

/-- `valid_data = elevation[elevation != nodata]` (line 22): the valid
samples in row-major order. -/
def validSamples (samples : List Int) (nodata : Int) : List Int :=
  samples.filter (fun s => s ≠ nodata)

/-- NumPy int16 arithmetic wraps on overflow: reduce an integer to the
signed 16-bit range `[-32768, 32767]`. -/
def wrap16 (x : Int) : Int :=
  (x + 32768) % 65536 - 32768

/-- One element of `((elevation[mask] - min_elev) / (max_elev - min_elev)
* 255).astype(np.uint8)` (line 34).  The subtractions
`elevation[mask] - min_elev` and `max_elev - min_elev` are NumPy int16
and wrap on overflow (`wrap16`).  The division is float64; its rounded
result times 255, rounded again and cast to `uint8`, is modelled as the
truncation toward zero (`Int.tdiv`) of the exact rational
`num·255 / den`, guarded by the cast's definedness window: `none` marks
the two outcomes NumPy leaves undefined — `0/0 = NaN` (when the wrapped
denominator is 0, i.e. `max_elev = min_elev`), and a float value outside
`(-1, 256)`, whose truncation is not representable in `uint8` (C
undefined behaviour).  On every input where a theorem below evaluates
this function the exact truncation agrees with the program's
double-rounded binary64 computation: for `0 ≤ num ≤ den` (the no-wrap
domain of the theorems) double rounding can move the truncated value
only when `num·255/den` is an integer, which forces the reduced
denominator to divide 255 — all such reduced pairs check out — and every
other value is at least `1/32767` away from an integer, far beyond the
`≈ 6·10⁻¹⁴` float error; the counterexamples' evaluation points involve
only float-exact operations (divisions by −2, multiples of 255). -/
def quantize (s min_elev max_elev : Int) : Option Nat :=
  let num := wrap16 (s - min_elev)
  let den := wrap16 (max_elev - min_elev)
  if den = 0 then none
  else
    let v := Int.tdiv (num * 255) den
    if 0 ≤ v ∧ v < 256 then some v.toNat else none

/-- `dem_to_heightmap` (lines 20-34): split off the valid samples,
take their min and max (raising on an empty reduction), then build the
heightmap: positions equal to `nodata` keep the `np.zeros_like` value 0,
every other position gets the quantized sample. -/
def dem_to_heightmap (samples : List Int) (nodata : Int) : Except NormError (List (Option Nat)) :=
  let valid := validSamples samples nodata
  match valid.min?, valid.max? with
  | some min_elev, some max_elev =>
      Except.ok (samples.map fun s =>
        if s = nodata then some 0 else quantize s min_elev max_elev)
  | _, _ => Except.error NormError.EmptyValidRange

/-! ## Helper lemmas -/

theorem int_min?_le {l : List Int} {m x : Int} (h : l.min? = some m) (hx : x ∈ l) : m ≤ x := by
  have := (@List.min?_eq_some_iff Int m _ _ ⟨fun h1 h2 => le_antisymm h1 h2⟩
    (fun a => le_refl a) (fun a b => min_choice a b) (fun _ _ _ => le_min_iff) l).mp h
  exact this.2 x hx

theorem int_le_max? {l : List Int} {m x : Int} (h : l.max? = some m) (hx : x ∈ l) : x ≤ m := by
  have := (@List.max?_eq_some_iff Int m _ _ ⟨fun h1 h2 => le_antisymm h1 h2⟩
    (fun a => le_refl a) (fun a b => max_choice a b) (fun _ _ _ => max_le_iff) l).mp h
  exact this.2 x hx

theorem mem_validSamples {samples : List Int} {nodata s : Int}
    (hs : s ∈ samples) (hne : s ≠ nodata) : s ∈ validSamples samples nodata := by
  exact List.mem_filter.mpr ⟨hs, by simp [hne]⟩

/-- The exact-rational value of the normalizer's float expression, floored,
is integer floor division of `(s - min)·255` by `(max - min)`. -/
theorem floor_formula_eq_ediv {s min_elev max_elev : Int} (hlt : min_elev < max_elev) :
    ⌊((s : ℚ) - min_elev) / ((max_elev : ℚ) - min_elev) * 255⌋
      = (s - min_elev) * 255 / (max_elev - min_elev) := by
  have hb : (0 : Int) < max_elev - min_elev := by omega
  have h0 : ((max_elev - min_elev).toNat : ℤ) = max_elev - min_elev := Int.toNat_of_nonneg hb.le
  have hcast : (((max_elev - min_elev).toNat : ℕ) : ℚ) = (max_elev : ℚ) - min_elev := by
    calc (((max_elev - min_elev).toNat : ℕ) : ℚ)
        = ((((max_elev - min_elev).toNat : ℕ) : ℤ) : ℚ) := by norm_cast
      _ = ((max_elev - min_elev : ℤ) : ℚ) := by rw [h0]
      _ = (max_elev : ℚ) - min_elev := by push_cast; ring
  have h1 : ((s : ℚ) - min_elev) / ((max_elev : ℚ) - min_elev) * 255
      = (((s - min_elev) * 255 : Int) : ℚ) / (((max_elev - min_elev).toNat : ℕ) : ℚ) := by
    rw [hcast]
    push_cast
    ring
  rw [h1, Rat.floor_intCast_div_natCast, Int.toNat_of_nonneg hb.le]

/-- For a valid sample within `[min_elev, max_elev]`, a nondegenerate
range and a span small enough that neither int16 subtraction wraps,
`quantize` is exactly the spec's truncating scaling: the value lies in
the `uint8` cast's defined window and neither wraps nor clamps. -/
theorem quantize_eq_floor {s min_elev max_elev : Int}
    (hlt : min_elev < max_elev) (hspan : max_elev - min_elev ≤ 32767)
    (hs1 : min_elev ≤ s) (hs2 : s ≤ max_elev) :
    quantize s min_elev max_elev
      = some (Int.toNat ((s - min_elev) * 255 / (max_elev - min_elev))) := by
  have hb : (0 : Int) < max_elev - min_elev := by omega
  have hbne : max_elev - min_elev ≠ 0 := by omega
  have hwden : wrap16 (max_elev - min_elev) = max_elev - min_elev := by
    unfold wrap16
    omega
  have hwnum : wrap16 (s - min_elev) = s - min_elev := by
    unfold wrap16
    omega
  have ha : 0 ≤ (s - min_elev) * 255 := mul_nonneg (by omega) (by norm_num)
  have htd : Int.tdiv ((s - min_elev) * 255) (max_elev - min_elev)
      = (s - min_elev) * 255 / (max_elev - min_elev) := Int.tdiv_eq_ediv ha hb.le
  have hub : (s - min_elev) * 255 / (max_elev - min_elev) ≤ 255 := by
    have h255 : (s - min_elev) * 255 ≤ 255 * (max_elev - min_elev) := by
      have := mul_le_mul_of_nonneg_right (show s - min_elev ≤ max_elev - min_elev by omega)
        (show (0 : Int) ≤ 255 by norm_num)
      linarith
    calc (s - min_elev) * 255 / (max_elev - min_elev)
        ≤ 255 * (max_elev - min_elev) / (max_elev - min_elev) := Int.ediv_le_ediv hb h255
      _ = 255 := Int.mul_ediv_cancel 255 hbne
  have hlb : 0 ≤ (s - min_elev) * 255 / (max_elev - min_elev) := Int.ediv_nonneg ha hb.le
  simp only [quantize, hwnum, hwden, htd]
  rw [if_neg hbne, if_pos ⟨hlb, by omega⟩]

/-! ## Claim theorems: Heightmap Normalizer -/

/-- C4: on a grid in which every sample equals the nodata sentinel (zero
valid samples), the Heightmap Normalizer fails with `EmptyValidRange`. -/
theorem dem_to_heightmap_all_nodata (samples : List Int) (nodata : Int)
    (h : ∀ s ∈ samples, s = nodata) :
    dem_to_heightmap samples nodata = Except.error NormError.EmptyValidRange := by
  have hv : validSamples samples nodata = [] := by
    apply List.filter_eq_nil_iff.mpr
    intro a ha
    simp [h a ha]
  simp [dem_to_heightmap, hv]

/-- Witness for C4: the all-nodata grid `[-32768, -32768]` fails with
`EmptyValidRange`. -/
theorem dem_to_heightmap_all_nodata_witness :
    dem_to_heightmap [-32768, -32768] (-32768) = Except.error NormError.EmptyValidRange :=
  dem_to_heightmap_all_nodata [-32768, -32768] (-32768) (by decide)

/-- C3 (amended): on a grid with at least one valid sample,
`max_elev > min_elev` and a valid range spanning at most 32767 (so the
int16 subtractions on line 34 do not wrap and every cast is defined),
the normalizer maps each valid sample `s` to
`floor((s - min_elev) / (max_elev - min_elev) * 255)` (truncating, no
clamping or wrapping needed) and each nodata sample to pixel 0.  The
first conjunct gives the output with the floor written as integer floor
division; the second certifies that this is exactly the spec's
real-valued floor formula for every in-range sample.  Without the span
bound the claim fails: see the counterexample on `[-32767, 0, 32767]`,
where the wrapped denominator is −2 and the cast is undefined. -/
theorem dem_to_heightmap_formula (samples : List Int) (nodata min_elev max_elev : Int)
    (hmin : (validSamples samples nodata).min? = some min_elev)
    (hmax : (validSamples samples nodata).max? = some max_elev)
    (hlt : min_elev < max_elev)
    (hspan : max_elev - min_elev ≤ 32767) :
    dem_to_heightmap samples nodata =
      Except.ok (samples.map fun s =>
        if s = nodata then some 0
        else some (Int.toNat ((s - min_elev) * 255 / (max_elev - min_elev)))) ∧
    ∀ s : Int, min_elev ≤ s → s ≤ max_elev →
      ((s - min_elev) * 255 / (max_elev - min_elev) : Int)
        = ⌊((s : ℚ) - min_elev) / ((max_elev : ℚ) - min_elev) * 255⌋ := by
  constructor
  · simp only [dem_to_heightmap, hmin, hmax]
    congr 1
    apply List.map_congr_left
    intro s hs
    by_cases hne : s = nodata
    · simp [hne]
    · have hmem : s ∈ validSamples samples nodata := mem_validSamples hs hne
      have h1 : min_elev ≤ s := int_min?_le hmin hmem
      have h2 : s ≤ max_elev := int_le_max? hmax hmem
      simp [hne, quantize_eq_floor hlt hspan h1 h2]
  · intro s h1 h2
    exact (floor_formula_eq_ediv hlt).symm

/-- Witness for C3: the spec's example grid `{-32768 (nodata), 0, 100, 200}`
yields pixels `{0, 0, 127, 255}`. -/
theorem dem_to_heightmap_formula_witness :
    dem_to_heightmap [-32768, 0, 100, 200] (-32768)
      = Except.ok [some 0, some 0, some 127, some 255] := by
  rw [(dem_to_heightmap_formula [-32768, 0, 100, 200] (-32768) 0 200 (by rfl) (by rfl)
    (by decide) (by decide)).1]
  rfl

/-- Counterexample to C3 as stated: the grid `[-32767, 0, 32767]` with
nodata −32768 has one valid min −32767 and max 32767 (so max > min), but
the program's int16 denominator `max_elev - min_elev` wraps
(`65534 → -2`): for sample 0 the float value is `32767/(-2)·255 =
-4177792.5`, whose `uint8` cast is undefined (`none`) — not the claimed
`floor(32767/65534·255) = 127`.  (Samples −32767 and 32767 happen to
land in the cast's defined window, at 0 and 255.) -/
theorem dem_to_heightmap_int16_wrap :
    dem_to_heightmap [-32767, 0, 32767] (-32768) = Except.ok [some 0, none, some 255] ∧
    (none : Option Nat) ≠ some (Int.toNat ((0 - (-32767)) * 255 / (32767 - (-32767)))) :=
  ⟨rfl, by decide⟩

/-- C1 (code bug): on a grid whose valid samples are all equal (here the
1×1 grid `[50]`), `dem_to_heightmap` has no explicit `max_elev == min_elev`
branch; the float expression evaluates `(50-50)/(50-50) = 0/0 = NaN`, and
NumPy's cast of NaN to `uint8` is platform-undefined (modelled `none`) —
not the claimed pixel value 0. -/
theorem dem_to_heightmap_degenerate_nan :
    dem_to_heightmap [50] (-32768) = Except.ok [none] := rfl

/-- C10 (amended): with a nondegenerate valid range spanning at most
32767 (so the int16 subtractions on line 34 do not wrap and every cast
is defined), the quantization is monotone: valid samples `x ≤ y` receive
pixel values `pixel x ≤ pixel y`.  Without the span bound the program
assigns no defined pixel values to some valid samples: see the
counterexample on `[-32767, 0, 1, 32767]`. -/
theorem quantize_monotone (samples : List Int) (nodata min_elev max_elev x y : Int)
    (hmin : (validSamples samples nodata).min? = some min_elev)
    (hmax : (validSamples samples nodata).max? = some max_elev)
    (hlt : min_elev < max_elev)
    (hspan : max_elev - min_elev ≤ 32767)
    (hx : x ∈ validSamples samples nodata) (hy : y ∈ validSamples samples nodata)
    (hxy : x ≤ y) :
    (quantize x min_elev max_elev).getD 0 ≤ (quantize y min_elev max_elev).getD 0 := by
  have hx1 : min_elev ≤ x := int_min?_le hmin hx
  have hx2 : x ≤ max_elev := int_le_max? hmax hx
  have hy1 : min_elev ≤ y := int_min?_le hmin hy
  have hy2 : y ≤ max_elev := int_le_max? hmax hy
  rw [quantize_eq_floor hlt hspan hx1 hx2, quantize_eq_floor hlt hspan hy1 hy2]
  simp only [Option.getD_some]
  apply Int.toNat_le_toNat
  apply Int.ediv_le_ediv (by omega)
  have := mul_le_mul_of_nonneg_right (show x - min_elev ≤ y - min_elev by omega)
    (show (0 : Int) ≤ 255 by norm_num)
  linarith

/-- Witness for C10: in the grid `{-32768, 0, 100, 200}` the valid samples
`0 ≤ 100` receive pixels `0 ≤ 127`. -/
theorem quantize_monotone_witness :
    (quantize 0 0 200).getD 0 ≤ (quantize 100 0 200).getD 0 :=
  quantize_monotone [-32768, 0, 100, 200] (-32768) 0 200 0 100 (by rfl) (by rfl)
    (by decide) (by decide) (by decide) (by decide) (by decide)

/-- Counterexample to C10 as stated: on the grid `[-32767, 0, 1, 32767]`
(nodata −32768, min −32767, max 32767, so max > min) the int16
differences wrap — denominator `65534 → -2`, and for sample 1 the
numerator `32768 → -32768` as well — and the float values for the valid
samples 0 and 1 (`-4177792.5` and `4177920`) fall outside the `uint8`
cast's defined range: the program assigns them no defined pixel value at
all (on x86 typically 128 and 0, in that order), so the claimed ordered
pixel assignment for valid samples `0 ≤ 1` does not exist. -/
theorem dem_to_heightmap_int16_wrap_pair :
    dem_to_heightmap [-32767, 0, 1, 32767] (-32768)
      = Except.ok [some 0, none, none, some 255] := rfl

/-! ## Claim theorems: Tile Decoder -/

theorem readBigEndian16_length : ∀ l : List Nat, (readBigEndian16 l).length = l.length / 2
  | [] => by simp [readBigEndian16]
  | [_] => by simp [readBigEndian16]
  | _ :: _ :: rest => by
      have ih := readBigEndian16_length rest
      simp only [readBigEndian16, List.length_cons, ih]
      omega

theorem reshape_length (n : Nat) : ∀ (ncols : Nat) (l : List Int), (reshape n ncols l).length = n := by
  induction n with
  | zero => intro ncols l; simp [reshape]
  | succ k ih => intro ncols l; simp [reshape, ih]

/-- C5 (amended): the SRTM decoder fails — with NumPy `reshape`'s
`ValueError`, the failure the spec names `TruncatedInput` — exactly when
the number of complete 2-byte samples in the buffer differs from
3601 × 3601; `np.fromfile` silently drops a trailing odd byte first, so
the criterion is `length / 2 ≠ 3601 · 3601`, not `length ≠ 3601 · 3601 · 2`. -/
theorem hgt_decode_error_iff (bytes : List Nat) :
    isFailure (hgt_decode_srtm bytes) = true ↔ bytes.length / 2 ≠ 3601 * 3601 := by
  by_cases h : bytes.length / 2 = 3601 * 3601 <;>
    simp [hgt_decode_srtm, hgt_decode, readBigEndian16_length, h, isFailure]

/-- Witness for C5 (amended): the empty buffer fails. -/
theorem hgt_decode_error_iff_witness : isFailure (hgt_decode_srtm []) = true :=
  (hgt_decode_error_iff []).mpr (by decide)

/-- Counterexample to C5 as stated: a buffer of `2 · 3601² + 1 = 25934403`
bytes does not have length exactly `rows × cols × 2`, yet the decoder
succeeds — the trailing partial sample is silently dropped. -/
theorem hgt_decode_extra_byte_ok :
    isFailure (hgt_decode_srtm (List.replicate 25934403 0)) = false := by
  simp only [hgt_decode_srtm, hgt_decode]
  rw [readBigEndian16_length, List.length_replicate, if_pos (by norm_num)]
  rfl

/-- C6: the decoder reads each consecutive byte pair as a big-endian
signed 16-bit integer (the embedding decodes `'>i2'` explicitly, with no
host byte order anywhere): the 2-sample buffer `0x00 0x01, 0xFF 0xFF`
at rows = 1, cols = 2 decodes to samples `[1, -1]`. -/
theorem hgt_decode_big_endian_pair :
    hgt_decode 1 2 [0x00, 0x01, 0xFF, 0xFF] = Except.ok [[1, -1]] := rfl

/-- C7: on a well-sized buffer the decoder succeeds with the reversed row
list, and for every row index `r < nrows` output row `r` is input row
`nrows - 1 - r` of the south-to-north grid as read. -/
theorem hgt_decode_row_reversal (nrows ncols : Nat) (bytes : List Nat) (r : Nat)
    (hlen : bytes.length = nrows * ncols * 2) (hr : r < nrows) :
    hgt_decode nrows ncols bytes
      = Except.ok ((reshape nrows ncols (readBigEndian16 bytes)).reverse) ∧
    (reshape nrows ncols (readBigEndian16 bytes)).reverse[r]?
      = (reshape nrows ncols (readBigEndian16 bytes))[nrows - 1 - r]? := by
  have hdl : (readBigEndian16 bytes).length = nrows * ncols := by
    rw [readBigEndian16_length, hlen]
    omega
  have hlenr : (reshape nrows ncols (readBigEndian16 bytes)).length = nrows :=
    reshape_length nrows ncols (readBigEndian16 bytes)
  constructor
  · simp [hgt_decode, np_flipud, hdl]
  · rw [List.getElem?_reverse (by rw [hlenr]; exact hr), hlenr]

/-- Witness for C7: for the 2×1 buffer `[0x00, 0x01, 0x00, 0x02]`
(samples 1 then 2, south to north), output row 0 is input row 1. -/
theorem hgt_decode_row_reversal_witness :
    hgt_decode 2 1 [0x00, 0x01, 0x00, 0x02]
      = Except.ok ((reshape 2 1 (readBigEndian16 [0x00, 0x01, 0x00, 0x02])).reverse) ∧
    (reshape 2 1 (readBigEndian16 [0x00, 0x01, 0x00, 0x02])).reverse[0]?
      = (reshape 2 1 (readBigEndian16 [0x00, 0x01, 0x00, 0x02]))[2 - 1 - 0]? :=
  hgt_decode_row_reversal 2 1 [0x00, 0x01, 0x00, 0x02] 0 (by rfl) (by decide)

/-! ## Claim theorems: GeoBounds Resolver -/

theorem isWhitespace_eq_false_of_isDigit {c : Char} (h : c.isDigit = true) :
    c.isWhitespace = false := by
  rcases eq_or_ne c ' ' with rfl | h1
  · exact absurd h (by decide)
  rcases eq_or_ne c '\t' with rfl | h2
  · exact absurd h (by decide)
  rcases eq_or_ne c '\r' with rfl | h3
  · exact absurd h (by decide)
  rcases eq_or_ne c '\n' with rfl | h4
  · exact absurd h (by decide)
  simp [Char.isWhitespace, h1, h2, h3, h4]

theorem ne_dash_of_isDigit {c : Char} (h : c.isDigit = true) : c ≠ '-' := by
  rcases eq_or_ne c '-' with rfl | h1
  · exact absurd h (by decide)
  · exact h1

theorem ne_plus_of_isDigit {c : Char} (h : c.isDigit = true) : c ≠ '+' := by
  rcases eq_or_ne c '+' with rfl | h1
  · exact absurd h (by decide)
  · exact h1

theorem pyInt_two_digits {c1 c2 : Char} (h1 : c1.isDigit = true) (h2 : c2.isDigit = true) :
    pyInt [c1, c2] = some ((digitsToNat [c1, c2] : Int)) := by
  have w1 := isWhitespace_eq_false_of_isDigit h1
  have w2 := isWhitespace_eq_false_of_isDigit h2
  have d1 := ne_dash_of_isDigit h1
  have p1 := ne_plus_of_isDigit h1
  simp [pyInt, List.dropWhile_cons, w1, w2, h1, h2, d1, p1]

theorem pyInt_three_digits {c1 c2 c3 : Char}
    (h1 : c1.isDigit = true) (h2 : c2.isDigit = true) (h3 : c3.isDigit = true) :
    pyInt [c1, c2, c3] = some ((digitsToNat [c1, c2, c3] : Int)) := by
  have w1 := isWhitespace_eq_false_of_isDigit h1
  have w3 := isWhitespace_eq_false_of_isDigit h3
  have d1 := ne_dash_of_isDigit h1
  have p1 := ne_plus_of_isDigit h1
  simp [pyInt, List.dropWhile_cons, w1, w3, h1, h2, h3, d1, p1]

/-- C8: for every tile identifier matching the 7-character pattern
(hemisphere letter, two latitude digits, hemisphere letter, three
longitude digits), the resolver yields the 1°×1° box with
`south = -lat` iff the latitude letter is `S`, `west = -lon` iff the
longitude letter is `W`, `north = south + 1` and `east = west + 1`. -/
theorem hgt_parse_pattern_bounds (d1 c1 c2 d2 e1 e2 e3 : Char)
    (hd1 : d1 = 'N' ∨ d1 = 'S')
    (hc1 : c1.isDigit = true) (hc2 : c2.isDigit = true)
    (hd2 : d2 = 'E' ∨ d2 = 'W')
    (he1 : e1.isDigit = true) (he2 : e2.isDigit = true) (he3 : e3.isDigit = true) :
    hgt_parse (String.mk [d1, c1, c2, d2, e1, e2, e3]) =
      Except.ok
        { west := if d2 = 'W' then -(digitsToNat [e1, e2, e3] : Int)
                  else (digitsToNat [e1, e2, e3] : Int),
          south := if d1 = 'S' then -(digitsToNat [c1, c2] : Int)
                   else (digitsToNat [c1, c2] : Int),
          east := (if d2 = 'W' then -(digitsToNat [e1, e2, e3] : Int)
                   else (digitsToNat [e1, e2, e3] : Int)) + 1,
          north := (if d1 = 'S' then -(digitsToNat [c1, c2] : Int)
                    else (digitsToNat [c1, c2] : Int)) + 1 } := by
  have hs2 : pySlice (String.mk [d1, c1, c2, d2, e1, e2, e3]).data 1 3 = [c1, c2] := rfl
  have hs4 : pySlice (String.mk [d1, c1, c2, d2, e1, e2, e3]).data 4 7 = [e1, e2, e3] := rfl
  simp only [hgt_parse, hs2, hs4, pyInt_two_digits hc1 hc2, pyInt_three_digits he1 he2 he3]
  by_cases hS : d1 = 'S' <;> by_cases hW : d2 = 'W' <;> simp [hS, hW]

/-- Witness for C8: `S27E152` resolves to south = -27, north = -26,
west = 152, east = 153. -/
theorem hgt_parse_pattern_bounds_witness :
    hgt_parse "S27E152" = Except.ok ⟨152, -27, 153, -26⟩ := by
  have h := hgt_parse_pattern_bounds 'S' '2' '7' 'E' '1' '5' '2'
    (Or.inr rfl) rfl rfl (Or.inl rfl) rfl rfl rfl
  exact h

/-- C2 (amended): the resolver fails — with Python's `IndexError` or
`ValueError`, the failures the spec groups as `MalformedIdentifier` —
exactly when the identifier is empty, has no character at position 3, or
one of its digit fields (positions 1-2 and 4-6) does not parse as an
integer.  Hemisphere letters are never validated. -/
theorem hgt_parse_error_iff (stem : String) :
    isFailure (hgt_parse stem) = true ↔
      (stem.data[0]? = none ∨ stem.data[3]? = none ∨
       pyInt (pySlice stem.data 1 3) = none ∨ pyInt (pySlice stem.data 4 7) = none) := by
  unfold hgt_parse
  cases h0 : stem.data[0]? <;> cases h1 : pyInt (pySlice stem.data 1 3) <;>
    cases h3 : stem.data[3]? <;> cases h4 : pyInt (pySlice stem.data 4 7) <;>
      simp [isFailure, h0, h1, h3, h4]

/-- Witness for C2 (amended): `N2AE152` has the non-numeric latitude
field `2A` and fails. -/
theorem hgt_parse_error_iff_witness : isFailure (hgt_parse "N2AE152") = true :=
  (hgt_parse_error_iff "N2AE152").mpr (by decide)

/-- Counterexample to C2 as stated: `X27E152` does not match the pattern
(its first letter is neither `N` nor `S`), yet the resolver succeeds,
treating `X` like `N` and returning the box for 27°N-28°N, 152°E-153°E. -/
theorem hgt_parse_accepts_bad_hemisphere :
    hgt_parse "X27E152" = Except.ok ⟨152, 27, 153, 28⟩ := rfl

/-! ## Claim theorems: Affine Transform Builder -/

/-- C9 (amended): for valid bounds (east > west, north > south) and
positive dimensions, the transform evaluated in the rounding-free
reference semantics (exact rational arithmetic in place of the program's
binary64) has `pixel_width = (east - west) / cols` and
`pixel_height = (north - south) / rows` (stored negated in the `e`
coefficient), and maps pixel (0,0) to (west, north) and pixel
(cols, rows) to (east, south) exactly.  In the program's binary64 the
(cols, rows) corner need not be exact — see the counterexample at
cols = 49, where `49 · fl(1/49) = 1 - 2⁻⁵³`. -/
theorem buildTransform_corners (gb : GeoBounds) (nrows ncols : Nat)
    (hew : gb.west < gb.east) (hsn : gb.south < gb.north)
    (hr : 0 < nrows) (hc : 0 < ncols) :
    (buildTransform gb nrows ncols).a = ((gb.east : ℚ) - gb.west) / ncols ∧
    -(buildTransform gb nrows ncols).e = ((gb.north : ℚ) - gb.south) / nrows ∧
    affineApply (buildTransform gb nrows ncols) 0 0 = ((gb.west : ℚ), (gb.north : ℚ)) ∧
    affineApply (buildTransform gb nrows ncols) (ncols : ℚ) (nrows : ℚ)
      = ((gb.east : ℚ), (gb.south : ℚ)) := by
  have hcq : ((ncols : ℚ)) ≠ 0 := Nat.cast_ne_zero.mpr hc.ne'
  have hrq : ((nrows : ℚ)) ≠ 0 := Nat.cast_ne_zero.mpr hr.ne'
  refine ⟨rfl, by simp [buildTransform, from_origin], ?_, ?_⟩
  · simp [affineApply, buildTransform, from_origin]
  · simp only [affineApply, buildTransform, from_origin, Prod.mk.injEq]
    constructor <;> field_simp

/-- Witness for C9: for the `S27E152` box and the fixed 3601×3601 grid,
pixel (0,0) maps to (west, north) = (152, -26) and pixel (3601, 3601)
maps to (east, south) = (153, -27). -/
theorem buildTransform_corners_witness :
    affineApply (buildTransform ⟨152, -27, 153, -26⟩ 3601 3601) 0 0
      = (((152 : Int) : ℚ), (((-26) : Int) : ℚ)) ∧
    affineApply (buildTransform ⟨152, -27, 153, -26⟩ 3601 3601) ((3601 : Nat) : ℚ) ((3601 : Nat) : ℚ)
      = (((153 : Int) : ℚ), (((-27) : Int) : ℚ)) := by
  have h := buildTransform_corners ⟨152, -27, 153, -26⟩ 3601 3601
    (by decide) (by decide) (by decide) (by decide)
  exact ⟨h.2.2.1, h.2.2.2⟩

/-- Counterexample to C9 as stated: for the valid bounds west = 0,
south = 0, east = 1, north = 1 and cols = 49, the program's binary64
`pixel_width` is `fl(1/49) = 5882252574524729 · 2⁻⁵⁸`, and the east
corner's x-coordinate, `west + 49 · pixel_width` computed in binary64,
is `fl(49 · fl(1/49)) = (2⁵³ - 1) · 2⁻⁵³ = 1 - 2⁻⁵³ ≠ 1 = east`: the
program's corner mapping is not exact. -/
theorem buildTransform_corner_float_inexact :
    corner_x_f64 ⟨0, 0, 1, 1⟩ 49 ≠ ((1 : Int) : ℚ) := by
  have h : b64MulInt (pixel_width_f64 ⟨0, 0, 1, 1⟩ 49) ((49 : Nat) : Int)
      = (9007199254740991, -53) := by
    set_option maxRecDepth 4000 in decide
  have key : corner_x_f64 ⟨0, 0, 1, 1⟩ 49
      = ((0 : Int) : ℚ)
        + f64Val (b64MulInt (pixel_width_f64 ⟨0, 0, 1, 1⟩ 49) ((49 : Nat) : Int)) := rfl
  rw [key, h]
  norm_num [f64Val]
